import Mathlib

/-!
# Verification of the qa-rag-system ingestion pipeline

Shallow embedding of the concurrent ingestion pipeline of
`src/utils/document_loader.py` and `src/utils/text_processer.py`:
source-type dispatch (`create_document_loader`), the PDF and web loaders,
batch loading with bounded concurrency (`BatchDocumentLoader`), content-hash
deduplication (`_deduplicate_documents`), and the chunk-generation driver
(`generate_chunks_from_sources`).

External collaborators (trafilatura, BeautifulSoup, hashlib, PyPDFLoader,
the HTTP stack, the text splitter) are modelled as parameters; Python
exceptions are modelled with `Except String`.
-/

namespace QARag

/-- A metadata value: Python metadata dicts in this codebase hold strings
(`source_type`, `source_url`, `content_hash`, `processed_at`, `title`) and
integers (`content_length`, page index). -/
inductive MValue
  | s (v : String)
  | n (v : Nat)
deriving DecidableEq, Repr

/-- Python truthiness for the metadata values that occur here: an empty
string and zero are falsy. -/
def truthyV : MValue → Bool
  | MValue.s v => v ≠ ""
  | MValue.n v => v ≠ 0

/-- A langchain `Document`: `page_content` plus a metadata dict, modelled
as an insertion-ordered association list with unique keys. -/
structure Doc where
  page_content : String
  metadata : List (String × MValue)
deriving DecidableEq, Repr

/-- `dict[k] = v` on an insertion-ordered Python dict: replace in place when
the key exists, append otherwise. -/
def dict_set (m : List (String × MValue)) (k : String) (v : MValue) :
    List (String × MValue) :=
  if (m.lookup k).isSome then
    m.map (fun p => if p.1 = k then (k, v) else p)
  else
    m ++ [(k, v)]

/-- `BatchDocumentLoader._deduplicate_documents`, inner loop
(document_loader.py lines 224–232): the `seen` argument is the
`seen_hashes` set.  `doc.metadata.get("content_hash")` returning a missing
key or a falsy value skips both the duplicate test and the `seen` insert;
the document is appended unconditionally in those cases. -/
def deduplicate_go (seen : List MValue) : List Doc → List Doc
  | [] => []
  | d :: rest =>
    match d.metadata.lookup "content_hash" with
    | some v =>
      if truthyV v then
        if v ∈ seen then deduplicate_go seen rest
        else d :: deduplicate_go (v :: seen) rest
      else d :: deduplicate_go seen rest
    | none => d :: deduplicate_go seen rest

/-- `BatchDocumentLoader._deduplicate_documents` (document_loader.py
lines 219–235): single pass with an initially empty `seen_hashes` set. -/
def deduplicate_documents (docs : List Doc) : List Doc :=
  deduplicate_go [] docs

/-- The deduplication key the code acts on: the `content_hash` metadata
entry when present and truthy, `none` otherwise. -/
def dHash (d : Doc) : Option MValue :=
  match d.metadata.lookup "content_hash" with
  | some v => if truthyV v then some v else none
  | none => none

lemma dHash_eq_some {d : Doc} {v : MValue} (h : dHash d = some v) :
    d.metadata.lookup "content_hash" = some v ∧ truthyV v = true := by
  unfold dHash at h
  rcases hl : d.metadata.lookup "content_hash" with _ | w
  · rw [hl] at h; simp at h
  · rw [hl] at h
    cases htv : truthyV w
    · simp [htv] at h
    · simp [htv] at h
      subst h
      exact ⟨rfl, htv⟩

lemma dedup_cons_none {seen : List MValue} {d : Doc} {rest : List Doc}
    (h : dHash d = none) :
    deduplicate_go seen (d :: rest) = d :: deduplicate_go seen rest := by
  rcases hl : d.metadata.lookup "content_hash" with _ | v
  · simp [deduplicate_go, hl]
  · have ht : truthyV v = false := by
      cases htv : truthyV v
      · rfl
      · simp [dHash, hl, htv] at h
    simp [deduplicate_go, hl, ht]

lemma dedup_cons_mem {seen : List MValue} {d : Doc} {rest : List Doc} {v : MValue}
    (h : dHash d = some v) (hv : v ∈ seen) :
    deduplicate_go seen (d :: rest) = deduplicate_go seen rest := by
  obtain ⟨hl, ht⟩ := dHash_eq_some h
  simp [deduplicate_go, hl, ht, hv]

lemma dedup_cons_new {seen : List MValue} {d : Doc} {rest : List Doc} {v : MValue}
    (h : dHash d = some v) (hv : v ∉ seen) :
    deduplicate_go seen (d :: rest) = d :: deduplicate_go (v :: seen) rest := by
  obtain ⟨hl, ht⟩ := dHash_eq_some h
  simp [deduplicate_go, hl, ht, hv]

lemma dedup_go_sublist (seen : List MValue) (docs : List Doc) :
    List.Sublist (deduplicate_go seen docs) docs := by
  induction docs generalizing seen with
  | nil => simp [deduplicate_go]
  | cons d rest ih =>
    rcases hd : dHash d with _ | v
    · rw [dedup_cons_none hd]
      exact List.Sublist.cons₂ d (ih seen)
    · by_cases hv : v ∈ seen
      · rw [dedup_cons_mem hd hv]
        exact List.Sublist.cons d (ih seen)
      · rw [dedup_cons_new hd hv]
        exact List.Sublist.cons₂ d (ih (v :: seen))

lemma dedup_go_countP_none (seen : List MValue) (docs : List Doc) :
    (deduplicate_go seen docs).countP (fun d => decide (dHash d = none)) =
      docs.countP (fun d => decide (dHash d = none)) := by
  induction docs generalizing seen with
  | nil => simp [deduplicate_go]
  | cons d rest ih =>
    rcases hd : dHash d with _ | v
    · rw [dedup_cons_none hd]
      simp [List.countP_cons, hd, ih seen]
    · by_cases hv : v ∈ seen
      · rw [dedup_cons_mem hd hv]
        simp [List.countP_cons, hd, ih seen]
      · rw [dedup_cons_new hd hv]
        simp [List.countP_cons, hd, ih (v :: seen)]

lemma dedup_go_filter_hash (seen : List MValue) (docs : List Doc) (v : MValue) :
    (deduplicate_go seen docs).filter (fun d => decide (dHash d = some v)) =
      if v ∈ seen then [] else
        (docs.filter (fun d => decide (dHash d = some v))).take 1 := by
  induction docs generalizing seen with
  | nil => simp [deduplicate_go]
  | cons d rest ih =>
    rcases hd : dHash d with _ | w
    · rw [dedup_cons_none hd]
      have hpd : decide (dHash d = some v) = false := by simp [hd]
      rw [List.filter_cons, List.filter_cons, hpd]
      simp only [Bool.false_eq_true, if_false]
      exact ih seen
    · by_cases hv : w ∈ seen
      · rw [dedup_cons_mem hd hv, ih seen]
        by_cases hvs : v ∈ seen
        · simp [hvs]
        · have hw : w ≠ v := fun he => hvs (he ▸ hv)
          simp [hvs, List.filter_cons, hd, hw]
      · rw [dedup_cons_new hd hv]
        rcases eq_or_ne w v with rfl | hw
        · have hpd : decide (dHash d = some w) = true := by simp [hd]
          rw [List.filter_cons, List.filter_cons, hpd]
          simp only [if_true]
          rw [ih (w :: seen)]
          simp [hv]
        · have hpd : decide (dHash d = some v) = false := by
            simp [hd, hw]
          rw [List.filter_cons, List.filter_cons, hpd]
          simp only [Bool.false_eq_true, if_false]
          rw [ih (w :: seen)]
          simp [List.mem_cons, Ne.symm hw]

/-- C1: deduplication keeps exactly the first Document seen for each
distinct truthy `content_hash` (a single survivor per hash, the
first-seen one), drops every later Document sharing an already-seen hash,
never drops a Document whose metadata lacks a (truthy) `content_hash`,
and preserves the first-seen relative order among survivors (the output
is a sublist of the input). -/
theorem C1_deduplication_correct (docs : List Doc) :
    List.Sublist (deduplicate_documents docs) docs ∧
    (deduplicate_documents docs).countP (fun d => decide (dHash d = none)) =
      docs.countP (fun d => decide (dHash d = none)) ∧
    ∀ v : MValue,
      (deduplicate_documents docs).filter (fun d => decide (dHash d = some v)) =
        (docs.filter (fun d => decide (dHash d = some v))).take 1 := by
  refine ⟨dedup_go_sublist [] docs, dedup_go_countP_none [] docs, fun v => ?_⟩
  have h := dedup_go_filter_hash [] docs v
  simpa using h

/-- Outcome of one loader task as observed by
`asyncio.gather(*tasks, return_exceptions=True)` in
`BatchDocumentLoader.load_documents`: either a raised exception (carried
as a value) or the loader's Document list. -/
inductive LoaderResult
  | exn (msg : String)
  | docs (l : List Doc)
deriving DecidableEq, Repr

/-- The flattening loop of `BatchDocumentLoader.load_documents`
(document_loader.py lines 204–209): exceptions are logged and skipped,
lists are concatenated in result order. -/
def flatten_results (results : List LoaderResult) : List Doc :=
  results.foldl
    (fun acc r =>
      match r with
      | LoaderResult.exn _ => acc
      | LoaderResult.docs l => acc ++ l)
    []

/-- `BatchDocumentLoader.load_documents` after the gather step: flatten the
per-loader results, then deduplicate (document_loader.py lines 198–212). -/
def load_documents (results : List LoaderResult) : List Doc :=
  deduplicate_documents (flatten_results results)

/-- A loader outcome that contributes nothing: a raised exception or an
empty Document list. -/
def isFailing : LoaderResult → Bool
  | LoaderResult.exn _ => true
  | LoaderResult.docs l => l.isEmpty

lemma flatten_go_acc (results : List LoaderResult) (acc : List Doc) :
    results.foldl
      (fun acc r =>
        match r with
        | LoaderResult.exn _ => acc
        | LoaderResult.docs l => acc ++ l)
      acc = acc ++ flatten_results results := by
  induction results generalizing acc with
  | nil => simp [flatten_results]
  | cons r rest ih =>
    cases r with
    | exn msg =>
      rw [List.foldl_cons]
      rw [flatten_results, List.foldl_cons]
      exact ih acc
    | docs l =>
      rw [List.foldl_cons]
      rw [flatten_results, List.foldl_cons]
      rw [ih (acc ++ l), ih ([] ++ l)]
      simp [flatten_results, List.append_assoc]

lemma flatten_results_append (xs ys : List LoaderResult) :
    flatten_results (xs ++ ys) = flatten_results xs ++ flatten_results ys := by
  rw [flatten_results, List.foldl_append]
  rw [show (xs.foldl
    (fun acc r =>
      match r with
      | LoaderResult.exn _ => acc
      | LoaderResult.docs l => acc ++ l)
    []) = flatten_results xs from rfl]
  exact flatten_go_acc ys (flatten_results xs)

lemma flatten_results_failing (f : LoaderResult) (hf : isFailing f = true) :
    flatten_results [f] = [] := by
  cases f with
  | exn msg => rfl
  | docs l =>
    simp [isFailing] at hf
    simp [flatten_results, hf]

/-- C6: a loader that raises or returns an empty list contributes zero
Documents: the flattened (pre-deduplication) output of
`load_documents` over the loader results equals the flattened output with
the failing loader removed — the other loaders' Documents are unchanged
in content and count, and the batch is not aborted. -/
theorem C6_failure_isolation (before after : List LoaderResult)
    (f : LoaderResult) (hf : isFailing f = true) :
    flatten_results (before ++ f :: after) = flatten_results (before ++ after) := by
  have h1 : before ++ f :: after = (before ++ [f]) ++ after := by simp
  rw [h1, flatten_results_append, flatten_results_append,
    flatten_results_append, flatten_results_failing f hf]
  simp

/-- Witness for C6 at a concrete batch: the middle loader raises, the
outer two return one Document each. -/
theorem C6_failure_isolation_witness :
    isFailing (LoaderResult.exn "HTTP 404 for https://a.test") = true ∧
    flatten_results
        [LoaderResult.docs [⟨"alpha", [("content_hash", MValue.s "h1")]⟩],
         LoaderResult.exn "HTTP 404 for https://a.test",
         LoaderResult.docs [⟨"beta", [("content_hash", MValue.s "h2")]⟩]] =
      flatten_results
        [LoaderResult.docs [⟨"alpha", [("content_hash", MValue.s "h1")]⟩],
         LoaderResult.docs [⟨"beta", [("content_hash", MValue.s "h2")]⟩]] :=
  ⟨by decide,
    C6_failure_isolation
      [LoaderResult.docs [⟨"alpha", [("content_hash", MValue.s "h1")]⟩]]
      [LoaderResult.docs [⟨"beta", [("content_hash", MValue.s "h2")]⟩]]
      (LoaderResult.exn "HTTP 404 for https://a.test") (by decide)⟩

/-- Python `str.startswith(p)`: the first `len(p)` characters equal `p`. -/
def py_startswith (s p : String) : Bool :=
  decide (s.data.take p.data.length = p.data)

/-- Python `str.endswith(p)`: the last `len(p)` characters equal `p`. -/
def py_endswith (s p : String) : Bool :=
  decide (s.data.drop (s.data.length - p.data.length) = p.data)

/-- Python `str.lower()` (character-wise lowering). -/
def py_lower (s : String) : String :=
  ⟨s.data.map Char.toLower⟩

/-- The loader variant chosen by the factory, carrying its source string
(`WebDocumentLoader(source)` / `PDFDocumentLoader(source)`). -/
inductive LoaderK
  | web (url : String)
  | pdf (path : String)
deriving DecidableEq, Repr

/-- `create_document_loader` (document_loader.py lines 238–245):
`source.startswith(('http://', 'https://'))` picks the web loader,
otherwise a case-sensitive `source.endswith('.pdf')` picks the PDF
loader, otherwise `ValueError("Unsupported document source: ...")` is
raised (modelled as `Except.error` with the exception message). -/
def create_document_loader (source : String) : Except String LoaderK :=
  if py_startswith source "http://" || py_startswith source "https://" then
    Except.ok (LoaderK.web source)
  else if py_endswith source ".pdf" then
    Except.ok (LoaderK.pdf source)
  else
    Except.error ("Unsupported document source: " ++ source)

/-- Counterexample to C3: the claim says a source with a `.pdf` suffix
matched case-insensitively is classified as a PDF (and that
classification falls back to a filesystem existence check before
failing).  The code's suffix check is case-sensitive and there is no
filesystem check: `"paper.PDF"` matches the claim's case-insensitive
criterion yet the factory raises. -/
theorem C3_counterexample :
    py_endswith (py_lower "paper.PDF") ".pdf" = true ∧
    py_endswith "paper.PDF" ".pdf" = false ∧
    create_document_loader "paper.PDF" =
      Except.error "Unsupported document source: paper.PDF" := by
  refine ⟨by decide, by decide, ?_⟩
  rfl

/-- C3 amended: the factory checks the `http(s)://` URL scheme first,
then a case-sensitive `.pdf` suffix, and raises
`ValueError("Unsupported document source: ...")` exactly when the string
matches neither; there is no case-insensitive matching, no filesystem
existence check, and no `UnsupportedSourceError` type. -/
theorem C3_amended_factory_classification (source : String) :
    (create_document_loader source = Except.ok (LoaderK.web source) ↔
      (py_startswith source "http://" = true ∨ py_startswith source "https://" = true)) ∧
    (create_document_loader source = Except.ok (LoaderK.pdf source) ↔
      (¬(py_startswith source "http://" = true ∨ py_startswith source "https://" = true) ∧
        py_endswith source ".pdf" = true)) ∧
    (create_document_loader source =
        Except.error ("Unsupported document source: " ++ source) ↔
      (¬(py_startswith source "http://" = true ∨ py_startswith source "https://" = true) ∧
        py_endswith source ".pdf" = false)) := by
  unfold create_document_loader
  by_cases hu : (py_startswith source "http://" || py_startswith source "https://") = true
  · rw [if_pos hu]
    simp at hu
    simp [hu]
  · rw [if_neg hu]
    simp at hu
    by_cases hp : py_endswith source ".pdf" = true
    · simp [hu, hp]
    · simp at hp
      simp [hu, hp]

/-- `generate_chunks_from_sources` (text_processer.py lines 36–85): build
loaders via `create_document_loader`, catching and skipping the
`ValueError` of unsupported sources; return `[]` when no loader was
created; batch-load; return `[]` when no Document was loaded; otherwise
split the documents into chunks.  `run_loader` gives each constructed
loader's gather outcome and `split` is the external
`RecursiveCharacterTextSplitter.split_documents`.  The `Except` result
records whether the call raises: the code never does. -/
def generate_chunks_from_sources (sources : List String)
    (run_loader : LoaderK → LoaderResult) (split : List Doc → List Doc) :
    Except String (List Doc) :=
  let loaders := sources.filterMap (fun s => (create_document_loader s).toOption)
  if loaders.isEmpty then Except.ok []
  else
    let documents := load_documents (loaders.map run_loader)
    if documents.isEmpty then Except.ok []
    else Except.ok (split documents)

/-- Counterexample to C5: the claim says the pipeline raises
`BatchAbortedError` when no valid loader could be constructed.  On a
batch whose only source is unsupported, the code returns an empty list
normally (`Except.ok []`); no `BatchAbortedError` exists anywhere in the
codebase. -/
theorem C5_counterexample :
    generate_chunks_from_sources ["unsupported_source"]
      (fun _ => LoaderResult.docs []) (fun l => l) = Except.ok [] := by
  rfl

/-- C5 amended: the pipeline never raises at all.  For every input it
returns normally, and when no valid loader could be constructed (every
source unsupported) it returns the empty list — the same soft outcome as
any per-source failure; there is no `BatchAbortedError`. -/
theorem C5_amended_no_hard_failure (sources : List String)
    (run_loader : LoaderK → LoaderResult) (split : List Doc → List Doc) :
    (∃ out, generate_chunks_from_sources sources run_loader split = Except.ok out) ∧
    ((∀ s ∈ sources, (create_document_loader s).toOption = none) →
      generate_chunks_from_sources sources run_loader split = Except.ok []) := by
  constructor
  · by_cases h1 :
      (sources.filterMap (fun s => (create_document_loader s).toOption)).isEmpty
    · exact ⟨[], by simp [generate_chunks_from_sources, h1]⟩
    · by_cases h2 : (load_documents
          ((sources.filterMap
            (fun s => (create_document_loader s).toOption)).map run_loader)).isEmpty
      · exact ⟨[], by simp [generate_chunks_from_sources, h1, h2]⟩
      · exact ⟨split (load_documents
            ((sources.filterMap
              (fun s => (create_document_loader s).toOption)).map run_loader)),
          by simp [generate_chunks_from_sources, h1, h2]⟩
  · intro h
    have hnil : sources.filterMap (fun s => (create_document_loader s).toOption) = [] :=
      List.filterMap_eq_nil_iff.mpr h
    simp [generate_chunks_from_sources, hnil]

/-- Witness for C5 amended: one unsupported source, pipeline returns
`ok []`. -/
theorem C5_amended_witness :
    (∀ s ∈ ["notes.txt"], (create_document_loader s).toOption = none) ∧
    generate_chunks_from_sources ["notes.txt"]
      (fun _ => LoaderResult.docs []) (fun l => l) = Except.ok [] :=
  ⟨by decide,
    (C5_amended_no_hard_failure ["notes.txt"]
      (fun _ => LoaderResult.docs []) (fun l => l)).2 (by decide)⟩

/-- Python whitespace for `str.strip()`. -/
def is_py_space (c : Char) : Bool :=
  c = ' ' || c = '\t' || c = '\n' || c = '\x0d' || c = '\x0b' || c = '\x0c'

/-- Python `str.strip()`: drop leading and trailing whitespace. -/
def py_strip (s : String) : String :=
  ⟨((s.data.dropWhile is_py_space).reverse.dropWhile is_py_space).reverse⟩

/-- Python truthiness of an optional string: `None` and `""` are falsy.
Used for `if not text_content`. -/
def py_falsy : Option String → Bool
  | none => true
  | some s => decide (s = "")

/-- The repeated guard `not text_content or len(text_content.strip()) < 100`
of `WebDocumentLoader.load` (document_loader.py lines 110 and 132). -/
def below_threshold (t : Option String) : Bool :=
  py_falsy t || decide ((py_strip (t.getD "")).data.length < 100)

/-- External collaborators of `WebDocumentLoader.load`, modelled as
oracles; `Except String` carries a raised Python exception.
`soup_get_text tags sep html` is BeautifulSoup parsing of `html` with the
elements named in `tags` decomposed, then `get_text(separator=sep,
strip=True)`.  `soup_title` is `soup.find('title')` plus
`get_text(strip=True)`.  `md5_hexdigest` is
`hashlib.md5(...).hexdigest()` (total). -/
structure WebEnv where
  trafilatura_extract : String → Except String (Option String)
  soup_get_text : List String → String → String → Except String String
  soup_title : String → Except String (Option String)
  md5_hexdigest : String → String
  now : String

/-- What `session.get(url)` + `response.text()` produce for one URL:
either a raised exception (SSL failure, timeout, connection error,
decode error) or a status code with a decoded body. -/
inductive FetchResult
  | raised (msg : String)
  | response (status : Nat) (body : String)
deriving DecidableEq, Repr

/-- The extraction phase of `WebDocumentLoader.load` (document_loader.py
lines 101–126): primary trafilatura extraction with a BeautifulSoup
structural fallback (decompose `script`, `style`, `nav`, `header`,
`footer`; join text nodes with `' '`) when the primary result is falsy or
its stripped length is below 100; plain BeautifulSoup extraction when
`extract_method` is not `"trafilatura"`.  Returns the text (still
optional, mirroring the Python variable) and the
`extraction_method_used` marker. -/
def extract_text (env : WebEnv) (extract_method html : String) :
    Except String (Option String × String) :=
  if extract_method = "trafilatura" then
    match env.trafilatura_extract html with
    | Except.error e => Except.error e
    | Except.ok t =>
      if below_threshold t then
        match env.soup_get_text ["script", "style", "nav", "header", "footer"] " " html with
        | Except.error e => Except.error e
        | Except.ok fb => Except.ok (some fb, "beautifulsoup_fallback")
      else Except.ok (t, "trafilatura")
  else
    match env.soup_get_text ["script", "style", "nav", "header", "footer"] " " html with
    | Except.error e => Except.error e
    | Except.ok fb => Except.ok (some fb, "beautifulsoup")

/-- `WebDocumentLoader._extract_title` (document_loader.py lines
173–180): missing `<title>` and any raised exception both degrade to
`"Untitled"`. -/
def extract_title (env : WebEnv) (html : String) : String :=
  match env.soup_title html with
  | Except.ok (some t) => t
  | Except.ok none => "Untitled"
  | Except.error _ => "Untitled"

/-- The `try` body of `WebDocumentLoader.load` (document_loader.py lines
73–153): a raised fetch propagates; a non-200 status raises
`Exception(f"HTTP {status} for {url}")`; extraction runs; sub-threshold
content returns `[]`; otherwise one Document with full web metadata is
returned. -/
def web_load_try (env : WebEnv) (extract_method url : String)
    (fetch : FetchResult) : Except String (List Doc) :=
  match fetch with
  | FetchResult.raised msg => Except.error msg
  | FetchResult.response status body =>
    if status ≠ 200 then
      Except.error ("HTTP " ++ toString status ++ " for " ++ url)
    else
      match extract_text env extract_method body with
      | Except.error e => Except.error e
      | Except.ok (text_content, _m) =>
        if below_threshold text_content then Except.ok []
        else
          Except.ok [{ page_content := text_content.getD "",
                       metadata :=
                         [("source_type", MValue.s "web"),
                          ("source_url", MValue.s url),
                          ("content_hash",
                            MValue.s (env.md5_hexdigest (text_content.getD ""))),
                          ("processed_at", MValue.s env.now),
                          ("title", MValue.s (extract_title env body)),
                          ("content_length",
                            MValue.n (text_content.getD "").data.length)] }]

/-- `WebDocumentLoader.load` (document_loader.py lines 71–171): the
`except Exception` handler turns every raised exception into an empty
list after advisory logging. -/
def web_load (env : WebEnv) (extract_method url : String)
    (fetch : FetchResult) : List Doc :=
  match web_load_try env extract_method url fetch with
  | Except.ok docs => docs
  | Except.error _ => []

/-- Python `ssl` verification modes. -/
inductive VerifyMode
  | certNone
  | certOptional
  | certRequired
deriving DecidableEq, Repr

/-- The two `ssl.SSLContext` fields the loader touches. -/
structure SSLContext where
  check_hostname : Bool
  verify_mode : VerifyMode
deriving DecidableEq, Repr

/-- `ssl.create_default_context()`: hostname checking on and certificates
required. -/
def ssl_create_default_context : SSLContext :=
  { check_hostname := true, verify_mode := VerifyMode.certRequired }

/-- The SSL context every `WebDocumentLoader.load` call builds
(document_loader.py lines 74–80): the default context with
`check_hostname = False` and `verify_mode = ssl.CERT_NONE` set
unconditionally — the constructor takes only `url` and `extract_method`,
so no opt-in parameter exists. -/
def web_loader_ssl_context : SSLContext :=
  let c := ssl_create_default_context
  let c1 := { c with check_hostname := false }
  { c1 with verify_mode := VerifyMode.certNone }

/-- C7 (code bug): every fetch uses an SSL context whose certificate
verification is disabled and whose hostname check is off, although the
default context it starts from would verify — relaxed TLS is the silent,
unconditional behavior, with no opt-in configuration surface. -/
theorem C7_tls_verification_disabled :
    web_loader_ssl_context.verify_mode = VerifyMode.certNone ∧
    web_loader_ssl_context.check_hostname = false ∧
    ssl_create_default_context.verify_mode = VerifyMode.certRequired :=
  ⟨rfl, rfl, rfl⟩

/-- C2: for every URL and every outcome of fetch and extraction,
`WebDocumentLoader.load` returns an empty list rather than letting an
exception propagate: a non-200 status always yields `[]`, and any raised
exception in the `try` body (SSL, timeout, decode, parse — every
`Except.error` of the embedded body) is converted to `[]`. -/
theorem C2_no_exception_past_loader (env : WebEnv) (extract_method url : String)
    (fetch : FetchResult) :
    (∀ status body, fetch = FetchResult.response status body → status ≠ 200 →
      web_load env extract_method url fetch = []) ∧
    (∀ e, web_load_try env extract_method url fetch = Except.error e →
      web_load env extract_method url fetch = []) := by
  constructor
  · intro status body hf hs
    subst hf
    have herr : web_load_try env extract_method url
        (FetchResult.response status body) =
        Except.error ("HTTP " ++ toString status ++ " for " ++ url) := by
      simp [web_load_try, hs]
    simp [web_load, herr]
  · intro e he
    simp [web_load, he]

/-- A concrete oracle environment used by witnesses: trafilatura echoes
the body, BeautifulSoup returns the raw html text, no title is found,
md5 is a fixed 32-hex-character digest. -/
def envEx : WebEnv :=
  { trafilatura_extract := fun s => Except.ok (some s),
    soup_get_text := fun _ _ html => Except.ok html,
    soup_title := fun _ => Except.ok none,
    md5_hexdigest := fun _ => "9e107d9d372bb6826bd81d3542a419d6",
    now := "2026-10-12T00:00:00" }

/-- Witness for C2 at a concrete 404 response. -/
theorem C2_no_exception_witness :
    (404 ≠ 200) ∧
    web_load envEx "trafilatura" "https://example.test"
      (FetchResult.response 404 "<html></html>") = [] :=
  ⟨by decide,
    (C2_no_exception_past_loader envEx "trafilatura" "https://example.test"
      (FetchResult.response 404 "<html></html>")).1 404 "<html></html>" rfl
      (by decide)⟩

/-- C8: with the trafilatura method, the structural BeautifulSoup
fallback (strip `script`/`style`/`nav`/`header`/`footer`, join text
nodes with `' '`) runs exactly when the primary result is falsy or its
stripped length is below 100 characters; and when the post-fallback
content is still below the threshold the loader returns `Except.ok []`
— zero Documents, not an error. -/
theorem C8_extraction_fallback (env : WebEnv) (url body : String)
    (t : Option String) (fb : String)
    (ht : env.trafilatura_extract body = Except.ok t)
    (hf : env.soup_get_text ["script", "style", "nav", "header", "footer"] " " body =
      Except.ok fb) :
    (extract_text env "trafilatura" body =
        Except.ok (some fb, "beautifulsoup_fallback") ↔
      below_threshold t = true) ∧
    (extract_text env "trafilatura" body = Except.ok (t, "trafilatura") ↔
      below_threshold t = false) ∧
    (below_threshold t = true → (py_strip fb).data.length < 100 →
      web_load_try env "trafilatura" url (FetchResult.response 200 body) =
        Except.ok []) := by
  have hext : extract_text env "trafilatura" body =
      if below_threshold t = true
      then Except.ok ((some fb, "beautifulsoup_fallback") : Option String × String)
      else Except.ok (t, "trafilatura") := by
    cases hbt : below_threshold t
    · simp [extract_text, ht, hbt]
    · simp [extract_text, ht, hbt, hf]
  refine ⟨?_, ?_, ?_⟩
  · rw [hext]
    cases hbt : below_threshold t
    · simp only [Bool.false_eq_true, if_false]
      constructor
      · intro h
        simp only [Except.ok.injEq, Prod.mk.injEq] at h
        exact absurd h.2 (by decide)
      · intro h
        exact absurd h (by simp)
    · simp
  · rw [hext]
    cases hbt : below_threshold t
    · simp
    · simp only [if_true]
      constructor
      · intro h
        simp only [Except.ok.injEq, Prod.mk.injEq] at h
        exact absurd h.2 (by decide)
      · intro h
        exact absurd h (by simp)
  · intro hbt hfb
    have hbfb : below_threshold (some fb) = true := by
      simp [below_threshold]
      exact Or.inr hfb
    simp [web_load_try, hext, hbt, hbfb]

/-- Witness for C8: a 4-character body; the primary result is below the
threshold, the fallback is invoked, and the still-short post-fallback
content yields `ok []`. -/
theorem C8_extraction_fallback_witness :
    below_threshold (some "tiny") = true ∧
    (py_strip "tiny").data.length < 100 ∧
    web_load_try envEx "trafilatura" "https://example.test"
      (FetchResult.response 200 "tiny") = Except.ok [] :=
  ⟨by decide, by decide,
    (C8_extraction_fallback envEx "https://example.test" "tiny"
      (some "tiny") "tiny" rfl rfl).2.2 (by decide) (by decide)⟩

/-- `PDFDocumentLoader.load` (document_loader.py lines 40–53): pages come
from the external `PyPDFLoader.load_and_split()` (the `pages` argument);
the loader adds `source_type`, `source_path` and `processed_at` to each
page's metadata and returns every page unchanged otherwise — no
`content_hash` is computed and no empty page is filtered. -/
def pdf_load (pdf_path now : String) (pages : List Doc) : List Doc :=
  pages.map (fun p =>
    { p with
      metadata :=
        dict_set (dict_set (dict_set p.metadata "source_type" (MValue.s "pdf"))
          "source_path" (MValue.s pdf_path)) "processed_at" (MValue.s now) })

lemma lookup_map_set_ne (m : List (String × MValue)) (k k' : String) (v : MValue)
    (h : k' ≠ k) :
    (m.map (fun p => if p.1 = k then (k, v) else p)).lookup k' = m.lookup k' := by
  have hbk : (k' == k) = false := by simp [h]
  induction m with
  | nil => rfl
  | cons p rest ih =>
    obtain ⟨pk, pv⟩ := p
    by_cases hp : pk = k
    · subst hp
      simp only [List.map_cons]
      rw [if_pos trivial]
      rw [List.lookup_cons, List.lookup_cons, hbk]
      exact ih
    · simp only [List.map_cons]
      rw [if_neg (by simpa using hp)]
      rw [List.lookup_cons, List.lookup_cons]
      cases hkp : k' == pk
      · exact ih
      · rfl

lemma lookup_append_single_ne (m : List (String × MValue)) (k k' : String)
    (v : MValue) (h : k' ≠ k) :
    (m ++ [(k, v)]).lookup k' = m.lookup k' := by
  have hbk : (k' == k) = false := by simp [h]
  induction m with
  | nil =>
    simp only [List.nil_append]
    rw [List.lookup_cons, hbk]
  | cons p rest ih =>
    obtain ⟨pk, pv⟩ := p
    simp only [List.cons_append]
    rw [List.lookup_cons, List.lookup_cons]
    cases hkp : k' == pk
    · exact ih
    · rfl

/-- Writing key `k` into a metadata dict leaves lookups of other keys
unchanged. -/
lemma dict_set_lookup_ne (m : List (String × MValue)) (k k' : String)
    (v : MValue) (h : k' ≠ k) :
    (dict_set m k v).lookup k' = m.lookup k' := by
  unfold dict_set
  by_cases hs : (m.lookup k).isSome
  · rw [if_pos hs]
    exact lookup_map_set_ne m k k' v h
  · rw [if_neg hs]
    exact lookup_append_single_ne m k k' v h

/-- Counterexample to C4: a PDF page surfaced through the full batch path
(`load_documents` over the pages `PDFDocumentLoader.load` returns)
carries no `content_hash` — the PDF loader never computes one, and the
deduplication pass keeps the hash-less Document, so the pipeline
surfaces a Document without a `content_hash` entry. -/
theorem C4_counterexample :
    (load_documents [LoaderResult.docs
        (pdf_load "datascience_paper.pdf" "2026-10-12T00:00:00"
          [⟨"page one text", [("page", MValue.n 0)]⟩])]).map
      (fun d => d.metadata.lookup "content_hash") = [none] := by
  rfl

/-- C4 amended: every *web* Document surfaced by the loader carries a
`content_hash` equal to the digest of its content (non-empty whenever the
digest function never returns the empty string, as a 32-hex-digit
`hexdigest` never does), and its content is at least 100 characters after
stripping, so empty web content is never surfaced.  *PDF* Documents, by
contrast, carry no `content_hash`: the PDF loader only adds
`source_type`, `source_path` and `processed_at`. -/
theorem C4_amended_content_hash (env : WebEnv) (extract_method url : String)
    (fetch : FetchResult) (pdf_path now : String) (pages : List Doc)
    (hmd5 : ∀ s, env.md5_hexdigest s ≠ "") :
    (∀ d ∈ web_load env extract_method url fetch,
      d.metadata.lookup "content_hash" =
        some (MValue.s (env.md5_hexdigest d.page_content)) ∧
      env.md5_hexdigest d.page_content ≠ "" ∧
      100 ≤ (py_strip d.page_content).data.length) ∧
    ((∀ p ∈ pages, p.metadata.lookup "content_hash" = none) →
      ∀ d ∈ pdf_load pdf_path now pages,
        d.metadata.lookup "content_hash" = none) := by
  constructor
  · intro d hd
    cases fetch with
    | raised msg => simp [web_load, web_load_try] at hd
    | response status body =>
      by_cases hs : status = 200
      · subst hs
        simp only [web_load, web_load_try] at hd
        rw [if_neg (by simp)] at hd
        cases hext : extract_text env extract_method body with
        | error e => rw [hext] at hd; simp at hd
        | ok pr =>
          rw [hext] at hd
          obtain ⟨tc, m⟩ := pr
          by_cases hbt : below_threshold tc = true
          · simp [hbt] at hd
          · simp only [hbt] at hd
            simp at hd
            subst hd
            refine ⟨rfl, hmd5 _, ?_⟩
            have hb : below_threshold tc = false := by
              simpa using hbt
            simp only [below_threshold, Bool.or_eq_false_iff,
              decide_eq_false_iff_not, Nat.not_lt] at hb
            exact hb.2
      · have herr : web_load_try env extract_method url
            (FetchResult.response status body) =
            Except.error ("HTTP " ++ toString status ++ " for " ++ url) := by
          simp [web_load_try, hs]
        simp [web_load, herr] at hd
  · intro hpages d hd
    unfold pdf_load at hd
    rw [List.mem_map] at hd
    obtain ⟨p, hp, rfl⟩ := hd
    show (dict_set (dict_set (dict_set p.metadata "source_type" (MValue.s "pdf"))
        "source_path" (MValue.s pdf_path)) "processed_at"
        (MValue.s now)).lookup "content_hash" = none
    rw [dict_set_lookup_ne _ _ _ _ (by decide)]
    rw [dict_set_lookup_ne _ _ _ _ (by decide)]
    rw [dict_set_lookup_ne _ _ _ _ (by decide)]
    exact hpages p hp

/-- Witness for C4 amended: a 120-character body produces one web
Document whose `content_hash` is the digest and whose stripped content
length is at least 100. -/
theorem C4_amended_witness :
    (∀ s, envEx.md5_hexdigest s ≠ "") ∧
    (∀ d ∈ web_load envEx "trafilatura" "https://example.test"
        (FetchResult.response 200 (String.mk (List.replicate 120 'a'))),
      d.metadata.lookup "content_hash" =
        some (MValue.s (envEx.md5_hexdigest d.page_content)) ∧
      envEx.md5_hexdigest d.page_content ≠ "" ∧
      100 ≤ (py_strip d.page_content).data.length) :=
  ⟨fun _ => show ("9e107d9d372bb6826bd81d3542a419d6" : String) ≠ "" by decide,
    (C4_amended_content_hash envEx "trafilatura" "https://example.test"
      (FetchResult.response 200 (String.mk (List.replicate 120 'a')))
      "datascience_paper.pdf" "2026-10-12T00:00:00" []
      (fun _ => show ("9e107d9d372bb6826bd81d3542a419d6" : String) ≠ "" by decide)).1⟩

/-!
## Cooperative-concurrency model of `BatchDocumentLoader`

The fetch phase is single-threaded cooperative concurrency: tasks are
suspendable and interleave on one logical thread.  Each of the `n`
loader tasks created by `load_documents` is in one of three states.
`_load_with_semaphore` wraps every `loader.load()` in
`async with self.semaphore`, so a task starts running only while fewer
than `max_concurrent` tasks hold a permit, and the permit is released
when the task settles, whether its payload is a Document list or a
raised exception (`async with` releases on both paths).
`asyncio.gather` stores each task's outcome in the slot of that task's
index, so the schedule is the only nondeterminism.
-/

/-- The state of one loader task: not yet admitted by the semaphore,
holding a permit, or settled with its outcome. -/
inductive TStatus
  | waiting
  | running
  | done (r : LoaderResult)
deriving DecidableEq, Repr

/-- One `load_documents` call: the semaphore bound
(`BatchDocumentLoader.max_concurrent`) and each task's eventual outcome
(what `loader.load()` returns or raises — fixed per loader, independent
of the schedule). -/
structure BatchRun (n : Nat) where
  maxConcurrent : Nat
  payload : Fin n → LoaderResult

/-- Number of tasks currently holding a semaphore permit. -/
def runningCount {n : Nat} (st : Fin n → TStatus) : Nat :=
  (Finset.univ.filter (fun i => st i = TStatus.running)).card

/-- Interleaving semantics: a waiting task may start only while fewer
than `maxConcurrent` tasks are running (semaphore acquire); a running
task may settle at any time with its own payload, releasing its permit
(semaphore release on completion *or* failure). -/
inductive BStep {n : Nat} (B : BatchRun n) :
    (Fin n → TStatus) → (Fin n → TStatus) → Prop
  | start (st : Fin n → TStatus) (i : Fin n) (hw : st i = TStatus.waiting)
      (hc : runningCount st < B.maxConcurrent) :
      BStep B st (Function.update st i TStatus.running)
  | finish (st : Fin n → TStatus) (i : Fin n) (hr : st i = TStatus.running) :
      BStep B st (Function.update st i (TStatus.done (B.payload i)))

/-- All tasks are created in the waiting state. -/
def batchInit (n : Nat) : Fin n → TStatus := fun _ => TStatus.waiting

/-- States a `load_documents` call can reach under some schedule. -/
def BatchReachable {n : Nat} (B : BatchRun n) (st : Fin n → TStatus) : Prop :=
  Relation.ReflTransGen (BStep B) (batchInit n) st

lemma runningCount_update_to_running {n : Nat} (st : Fin n → TStatus) (i : Fin n)
    (h : st i ≠ TStatus.running) :
    runningCount (Function.update st i TStatus.running) = runningCount st + 1 := by
  unfold runningCount
  have hset : Finset.univ.filter
      (fun j => Function.update st i TStatus.running j = TStatus.running) =
      insert i (Finset.univ.filter (fun j => st j = TStatus.running)) := by
    ext j
    by_cases hj : j = i
    · subst hj
      simp [Function.update_apply]
    · simp [Function.update_apply, hj]
  rw [hset]
  rw [Finset.card_insert_of_not_mem (by simp [h])]

lemma runningCount_update_from_running {n : Nat} (st : Fin n → TStatus) (i : Fin n)
    (v : TStatus) (hv : v ≠ TStatus.running) (hr : st i = TStatus.running) :
    runningCount (Function.update st i v) + 1 = runningCount st := by
  unfold runningCount
  have hset : Finset.univ.filter
      (fun j => Function.update st i v j = TStatus.running) =
      (Finset.univ.filter (fun j => st j = TStatus.running)).erase i := by
    ext j
    by_cases hj : j = i
    · subst hj
      simp [Function.update_apply, hv]
    · simp [Function.update_apply, hj]
  rw [hset]
  rw [Finset.card_erase_of_mem (by simp [hr])]
  have hpos : 0 < (Finset.univ.filter (fun j => st j = TStatus.running)).card :=
    Finset.card_pos.mpr ⟨i, by simp [hr]⟩
  omega

/-- C9: in every state reachable during a `load_documents` call at most
`max_concurrent` tasks run concurrently (the semaphore bound is an
invariant of every schedule), and settling any running task —
successfully or with an exception — always releases exactly its one
permit. -/
theorem C9_concurrency_bound {n : Nat} (B : BatchRun n) (st : Fin n → TStatus)
    (h : BatchReachable B st) :
    runningCount st ≤ B.maxConcurrent ∧
    (∀ i : Fin n, st i = TStatus.running →
      runningCount (Function.update st i (TStatus.done (B.payload i))) + 1 =
        runningCount st) := by
  refine ⟨?_, fun i hi =>
    runningCount_update_from_running st i _ (by simp) hi⟩
  induction h with
  | refl =>
    unfold runningCount batchInit
    simp
  | tail hab hbc ih =>
    cases hbc with
    | start i hw hc =>
      rw [runningCount_update_to_running _ i (by simp [hw])]
      omega
    | finish i hr =>
      have hrel := runningCount_update_from_running _ i
        (TStatus.done (B.payload i)) (by simp) hr
      omega

/-- Witness for C9: the initial two-task state is reachable and within
the bound. -/
theorem C9_concurrency_bound_witness :
    BatchReachable (⟨5, fun _ => LoaderResult.docs []⟩ : BatchRun 2)
      (batchInit 2) ∧
    runningCount (batchInit 2) ≤
      (⟨5, fun _ => LoaderResult.docs []⟩ : BatchRun 2).maxConcurrent :=
  ⟨Relation.ReflTransGen.refl,
    (C9_concurrency_bound (⟨5, fun _ => LoaderResult.docs []⟩ : BatchRun 2)
      (batchInit 2) Relation.ReflTransGen.refl).1⟩

/-- The result list `asyncio.gather` hands back: each settled task's
outcome read from the slot of that task's index, in index order. -/
def resultsOf {n : Nat} (st : Fin n → TStatus) : List LoaderResult :=
  (List.finRange n).filterMap
    (fun i => match st i with
      | TStatus.done r => some r
      | _ => none)

lemma reachable_done_payload {n : Nat} (B : BatchRun n) (st : Fin n → TStatus)
    (h : BatchReachable B st) :
    ∀ i r, st i = TStatus.done r → r = B.payload i := by
  induction h with
  | refl =>
    intro i r hi
    exact absurd hi (by simp [batchInit])
  | tail hab hbc ih =>
    intro i r hi
    cases hbc with
    | start j hw hc =>
      rcases eq_or_ne i j with rfl | hij
      · rw [Function.update_same] at hi
        cases hi
      · rw [Function.update_noteq hij] at hi
        exact ih i r hi
    | finish j hr =>
      rcases eq_or_ne i j with rfl | hij
      · rw [Function.update_same] at hi
        cases hi
        rfl
      · rw [Function.update_noteq hij] at hi
        exact ih i r hi

/-- C10: whatever the schedule, once every task has settled the gathered
result list equals the payloads in the order the loaders were passed in,
so the flattened pre-deduplication Document sequence is deterministic:
grouped by loader, in loader order, regardless of completion order. -/
theorem C10_deterministic_order {n : Nat} (B : BatchRun n) (st : Fin n → TStatus)
    (h : BatchReachable B st) (hdone : ∀ i, ∃ r, st i = TStatus.done r) :
    resultsOf st = (List.finRange n).map B.payload ∧
    flatten_results (resultsOf st) =
      flatten_results ((List.finRange n).map B.payload) := by
  have hall : ∀ i, st i = TStatus.done (B.payload i) := by
    intro i
    obtain ⟨r, hr⟩ := hdone i
    rw [hr, reachable_done_payload B st h i r hr]
  have hres : resultsOf st = (List.finRange n).map B.payload := by
    unfold resultsOf
    have : ∀ l : List (Fin n),
        l.filterMap (fun i => match st i with
          | TStatus.done r => some r
          | _ => none) = l.map B.payload := by
      intro l
      induction l with
      | nil => rfl
      | cons a l ih =>
        rw [List.filterMap_cons, List.map_cons, hall a, ih]
    exact this (List.finRange n)
  exact ⟨hres, by rw [hres]⟩

/-- Witness for C10: the empty batch settles immediately; the gathered
list is the (empty) payload list in order. -/
theorem C10_deterministic_order_witness :
    (∀ i : Fin 0, ∃ r, batchInit 0 i = TStatus.done r) ∧
    resultsOf (batchInit 0) =
      (List.finRange 0).map
        ((⟨3, fun i => i.elim0⟩ : BatchRun 0).payload) :=
  ⟨fun i => i.elim0,
    (C10_deterministic_order (⟨3, fun i => i.elim0⟩ : BatchRun 0)
      (batchInit 0) Relation.ReflTransGen.refl (fun i => i.elim0)).1⟩

end QARag
